import Mathlib

/-!
Shallow embedding of the task persistence layer of the Project-Management-Tool
repository: `database/database.js` (validation, CRUD, filtering, search,
statistics), `database/schema.sql` (table defaults and the `updated_at`
trigger), and the ProjectFlow sync adapter (`integration.js`).

Modelling conventions:
* strings crossing the JS boundary are lists of characters (`Str`);
* the `tasks` table is a list of rows inside `DbState`; SQLite's
  `CURRENT_TIMESTAMP` is a natural number supplied by the caller (the clock);
* a JavaScript `undefined` or `null` field is `Option.none`; JavaScript
  truthiness (empty string falsy, `0` falsy) is modelled by `truthyS` /
  `truthyN`;
* fallible operations return `Except DbError`; the `isConnected` guard of
  `database.js` is connection plumbing outside the table model and is omitted;
* SQLite `ORDER BY created_at DESC` is modelled with `List.insertionSort`
  over the relation `createdDesc` (ties are left unspecified by the SQL as
  well); SQLite text comparison is code-point order (`strLe`); SQLite `LIKE`
  is `likeM` (ASCII case folding, `%`/`_` wildcards); SQLite `SUM` over an
  empty table is `NULL`, hence `Option Nat` in `TaskStats`.
-/

/-- Strings over the JS boundary, modelled as lists of characters. -/
abbrev Str := List Char

/-- Whitespace stripped by the model of JavaScript `String.prototype.trim`. -/
def wsChar (c : Char) : Bool := c = ' ' || c = '\t' || c = '\n' || c = '\r'

/-- Model of JavaScript `String.prototype.trim`: strips whitespace from both
ends of the string. -/
def jsTrim (s : Str) : Str := ((s.dropWhile wsChar).reverse.dropWhile wsChar).reverse

/-- JavaScript truthiness of an optional string field: `undefined`, `null`
and the empty string are falsy. -/
def truthyS : Option Str → Bool
  | none => false
  | some s => !s.isEmpty

/-- JavaScript truthiness of an optional numeric field: `undefined`, `null`
and `0` are falsy. -/
def truthyN : Option Nat → Bool
  | none => false
  | some n => decide (n ≠ 0)

/-- A task payload as handed to `createTask` / `updateTask`: every field may
be absent.  The `updated_at` field models a caller attempting to set the
timestamp directly; `database.js` never reads it. -/
structure TaskPayload where
  title : Option Str
  description : Option Str
  due_date : Option Str
  priority : Option Str
  status : Option Str
  updated_at : Option Nat
deriving DecidableEq, Repr

def priorityHigh : Str := "high".toList
def priorityMedium : Str := "medium".toList
def priorityLow : Str := "low".toList
def statusPending : Str := "pending".toList
def statusCompleted : Str := "completed".toList
def statusTodo : Str := "todo".toList

def msgTitleRequired : Str := "Title is required".toList
def msgTitleLong : Str := "Title must be less than 255 characters".toList
def msgPriorityEnum : Str := "Priority must be high, medium, or low".toList
def msgStatusEnum : Str := "Status must be pending or completed".toList
def msgDueDate : Str := "Due date must be a valid date".toList

def priorityValues : List Str := [priorityHigh, priorityMedium, priorityLow]
def statusValues : List Str := [statusPending, statusCompleted]

def isDigitC (c : Char) : Bool := '0' ≤ c && c ≤ '9'

def digitV (c : Char) : Nat := c.toNat - '0'.toNat

def isLeap (y : Nat) : Bool := (y % 4 = 0 && decide (y % 100 ≠ 0)) || y % 400 = 0

def daysInMonth (y m : Nat) : Nat :=
  if m = 2 then (if isLeap y then 29 else 28)
  else if m = 4 || m = 6 || m = 9 || m = 11 then 30
  else 31

/-- Modelled from the JavaScript builtin `Date.parse` (not repository code),
restricted to the ISO `YYYY-MM-DD` date strings the application uses:
`true` exactly when the ten characters form a valid calendar date. -/
def jsDateParseOk : Str → Bool
  | [y1, y2, y3, y4, '-', m1, m2, '-', d1, d2] =>
    (isDigitC y1 && isDigitC y2 && isDigitC y3 && isDigitC y4 &&
     isDigitC m1 && isDigitC m2 && isDigitC d1 && isDigitC d2) &&
    (let y := ((digitV y1 * 10 + digitV y2) * 10 + digitV y3) * 10 + digitV y4
     let m := digitV m1 * 10 + digitV m2
     let d := digitV d1 * 10 + digitV d2
     decide (1 ≤ m) && decide (m ≤ 12) && decide (1 ≤ d) && decide (d ≤ daysInMonth y m))
  | _ => false

/-- `validateTask` from `database/database.js` lines 94–118: the five rule
checks push their messages into one list, in source order.  Note that the
length rule tests the raw (untrimmed) title length. -/
def validateTask (t : TaskPayload) : List Str :=
  (if !truthyS t.title || (jsTrim (t.title.getD [])).isEmpty then [msgTitleRequired] else []) ++
  (if truthyS t.title && decide ((t.title.getD []).length > 255) then [msgTitleLong] else []) ++
  (if truthyS t.priority && !decide (t.priority.getD [] ∈ priorityValues) then [msgPriorityEnum] else []) ++
  (if truthyS t.status && !decide (t.status.getD [] ∈ statusValues) then [msgStatusEnum] else []) ++
  (if truthyS t.due_date && !jsDateParseOk (t.due_date.getD []) then [msgDueDate] else [])

/-- A stored row of the `tasks` table (`schema.sql`). -/
structure TaskRow where
  task_id : Nat
  title : Str
  description : Option Str
  due_date : Option Str
  priority : Str
  status : Str
  created_at : Nat
  updated_at : Nat
deriving DecidableEq, Repr

/-- The tasks table plus the `AUTOINCREMENT` counter. -/
structure DbState where
  rows : List TaskRow
  nextId : Nat
deriving DecidableEq, Repr

/-- Failure taxonomy of the store operations (each constructor corresponds to
one `reject(new Error(...))` site in `database.js`). -/
inductive DbError where
  | validationFailed : List Str → DbError
  | notFound : Nat → DbError
  | noValidFields : DbError
  | searchTermRequired : DbError
deriving DecidableEq, Repr

/-- The value `createTask` resolves with:
`{ task_id: this.lastID, ...task, created_at: now, updated_at: now }` —
the raw payload spread, so optional fields stay exactly as supplied. -/
structure CreatedDto where
  task_id : Nat
  title : Option Str
  description : Option Str
  due_date : Option Str
  priority : Option Str
  status : Option Str
  created_at : Nat
  updated_at : Nat
deriving DecidableEq, Repr

/-- `createTask` from `database/database.js` lines 123–166: validate, insert
a row built from the trimmed title and the `|| 'medium'` / `|| 'pending'` /
`|| null` defaults, and resolve with the spread of the raw payload. -/
def createTask (st : DbState) (now : Nat) (t : TaskPayload) :
    Except DbError (DbState × CreatedDto) :=
  let errs := validateTask t
  if errs.isEmpty then
    let row : TaskRow :=
      { task_id := st.nextId,
        title := jsTrim (t.title.getD []),
        description := if truthyS t.description then t.description else none,
        due_date := if truthyS t.due_date then t.due_date else none,
        priority := if truthyS t.priority then t.priority.getD [] else priorityMedium,
        status := if truthyS t.status then t.status.getD [] else statusPending,
        created_at := now,
        updated_at := now }
    Except.ok
      ({ rows := st.rows ++ [row], nextId := st.nextId + 1 },
       { task_id := st.nextId,
         title := t.title,
         description := t.description,
         due_date := t.due_date,
         priority := t.priority,
         status := t.status,
         created_at := now,
         updated_at := now })
  else Except.error (DbError.validationFailed errs)

/-- `getTask` from `database/database.js` lines 171–195. -/
def getTask (st : DbState) (id : Nat) : Except DbError TaskRow :=
  match st.rows.find? (fun r => decide (r.task_id = id)) with
  | some r => Except.ok r
  | none => Except.error (DbError.notFound id)

/-- The optional filters accepted by `getAllTasks`. -/
structure TaskFilters where
  status : Option Str
  priority : Option Str
  due_date_from : Option Str
  due_date_to : Option Str
  limit : Option Nat
deriving DecidableEq, Repr

/-- SQLite BINARY text comparison (code-point order): `strLe a b` is `a <= b`. -/
def strLe : Str → Str → Bool
  | [], _ => true
  | _ :: _, [] => false
  | a :: s, b :: t =>
    if a.toNat < b.toNat then true
    else if b.toNat < a.toNat then false
    else strLe s t

/-- The `WHERE` clause `getAllTasks` builds: each filter participates only
when truthy (`if (filters.status)` …); a `NULL` `due_date` never satisfies a
bound comparison, per SQL three-valued logic. -/
def matchesFilters (f : TaskFilters) (r : TaskRow) : Bool :=
  (if truthyS f.status then decide (r.status = f.status.getD []) else true) &&
  (if truthyS f.priority then decide (r.priority = f.priority.getD []) else true) &&
  (if truthyS f.due_date_from then
     (match r.due_date with
      | some d => strLe (f.due_date_from.getD []) d
      | none => false)
   else true) &&
  (if truthyS f.due_date_to then
     (match r.due_date with
      | some d => strLe d (f.due_date_to.getD [])
      | none => false)
   else true)

/-- `ORDER BY created_at DESC` as a relation on rows. -/
def createdDesc (a b : TaskRow) : Prop := b.created_at ≤ a.created_at

instance : DecidableRel createdDesc := fun a b => Nat.decLe b.created_at a.created_at

instance : IsTotal TaskRow createdDesc := ⟨fun a b => Nat.le_total b.created_at a.created_at⟩

instance : IsTrans TaskRow createdDesc := ⟨fun _ _ _ h1 h2 => Nat.le_trans h2 h1⟩

/-- `getAllTasks` from `database/database.js` lines 200–250: filter, order by
`created_at` descending, and apply `LIMIT` only when `filters.limit` is
truthy (so a limit of `0` adds no clause). -/
def getAllTasks (st : DbState) (f : TaskFilters) : List TaskRow :=
  let matched := List.insertionSort createdDesc (st.rows.filter (matchesFilters f))
  if truthyN f.limit then matched.take (f.limit.getD 0) else matched

/-- The `SET` clause of `updateTask` applied to one row: each column present
on the payload (`!== undefined`) is overwritten (title trimmed, the rest
raw), and `updated_at = CURRENT_TIMESTAMP` is appended — the schema trigger
`update_tasks_updated_at` re-establishes the same value. -/
def applyUpdates (u : TaskPayload) (now : Nat) (r : TaskRow) : TaskRow :=
  { r with
    title := (u.title.map jsTrim).getD r.title,
    description := if u.description.isSome then u.description else r.description,
    due_date := if u.due_date.isSome then u.due_date else r.due_date,
    priority := u.priority.getD r.priority,
    status := u.status.getD r.status,
    updated_at := now }

/-- `updateTask` from `database/database.js` lines 255–325: validate the whole
payload with `validateTask`, reject `noValidFields` when no recognized column
is present, update the matching row, reject `notFound` when zero rows
changed.  The resolved value is `{ task_id, changes }`; we return the changes
count alongside the new table state. -/
def updateTask (st : DbState) (now : Nat) (id : Nat) (u : TaskPayload) :
    Except DbError (DbState × Nat) :=
  let errs := validateTask u
  if errs.isEmpty then
    if u.title.isSome || u.description.isSome || u.due_date.isSome ||
       u.priority.isSome || u.status.isSome then
      if st.rows.any (fun r => decide (r.task_id = id)) then
        Except.ok
          ({ rows := st.rows.map (fun r => if r.task_id = id then applyUpdates u now r else r),
             nextId := st.nextId }, 1)
      else Except.error (DbError.notFound id)
    else Except.error DbError.noValidFields
  else Except.error (DbError.validationFailed errs)

/-- `deleteTask` from `database/database.js` lines 330–355. -/
def deleteTask (st : DbState) (id : Nat) : Except DbError DbState :=
  if st.rows.any (fun r => decide (r.task_id = id)) then
    Except.ok { rows := st.rows.filter (fun r => !decide (r.task_id = id)), nextId := st.nextId }
  else Except.error (DbError.notFound id)

/-- The statistics row of `getTaskStats`.  SQL `SUM` over zero rows is
`NULL`, hence the `Option Nat` fields (JavaScript later coerces `null` to
`0` under `+`). -/
structure TaskStats where
  total_tasks : Nat
  pending_tasks : Option Nat
  completed_tasks : Option Nat
  high_priority_tasks : Option Nat
  due_today : Option Nat
deriving DecidableEq, Repr

/-- `SUM(CASE WHEN p THEN 1 ELSE 0 END)` over the table: `NULL` on an empty
table, otherwise the sum of the indicators. -/
def sqlSumCase (rows : List TaskRow) (p : TaskRow → Bool) : Option Nat :=
  match rows with
  | [] => none
  | _ :: _ => some ((rows.map (fun r => if p r then 1 else 0)).sum)

/-- `getTaskStats` from `database/database.js` lines 360–387; `today` models
SQLite's `date('now')`. -/
def getTaskStats (st : DbState) (today : Str) : TaskStats :=
  { total_tasks := st.rows.length,
    pending_tasks := sqlSumCase st.rows (fun r => decide (r.status = statusPending)),
    completed_tasks := sqlSumCase st.rows (fun r => decide (r.status = statusCompleted)),
    high_priority_tasks := sqlSumCase st.rows (fun r => decide (r.priority = priorityHigh)),
    due_today := sqlSumCase st.rows (fun r => decide (r.due_date = some today)) }

/-- ASCII lower-casing, the case folding SQLite `LIKE` applies by default. -/
def lowerA (c : Char) : Char :=
  if 'A' ≤ c && c ≤ 'Z' then Char.ofNat (c.toNat + 32) else c

/-- Suffixes of a string, longest first, including the empty suffix. -/
def suffixes : Str → List Str
  | [] => [[]]
  | c :: t => (c :: t) :: suffixes t

/-- SQLite `LIKE` pattern matching: `%` matches any sequence (the rest of the
pattern must match some suffix of the text), `_` matches any single
character, and any other character matches up to ASCII case folding. -/
def likeM : Str → Str → Bool
  | [], t => t.isEmpty
  | c :: p', t =>
    if c = '%' then (suffixes t).any (fun s => likeM p' s)
    else
      match t with
      | [] => false
      | d :: t' => (if c = '_' then true else decide (lowerA c = lowerA d)) && likeM p' t'

/-- `searchTasks` from `database/database.js` lines 392–422: reject blank
terms, otherwise return the rows where `title LIKE '%term%' OR description
LIKE '%term%'` (a `NULL` description never matches), ordered by `created_at`
descending. -/
def searchTasks (st : DbState) (term : Option Str) : Except DbError (List TaskRow) :=
  if !truthyS term || (jsTrim (term.getD [])).isEmpty then
    Except.error DbError.searchTermRequired
  else
    let pat : Str := '%' :: (jsTrim (term.getD []) ++ ['%'])
    Except.ok (List.insertionSort createdDesc (st.rows.filter (fun r =>
      likeM pat r.title ||
        (match r.description with
         | some d => likeM pat d
         | none => false))))

/-- A tasks-table row as the sync adapter receives it over the JS boundary:
SQLite renders the stored timestamps as text, so `created_at` is an optional
string here. -/
structure DbRowJs where
  task_id : Nat
  title : Str
  description : Option Str
  due_date : Option Str
  priority : Str
  status : Str
  created_at : Option Str
deriving DecidableEq, Repr

/-- A task in the ProjectFlow (UI) vocabulary.  Fields the UI may omit are
optional. -/
structure PFTask where
  id : Str
  title : Str
  description : Option Str
  projectId : Str
  priority : Option Str
  status : Option Str
  dueDate : Option Str
  createdDate : Str
deriving DecidableEq, Repr

/-- JavaScript `s.split(c)[0]`: the characters before the first occurrence. -/
def splitFirst (c : Char) (s : Str) : Str := s.takeWhile (fun d => !decide (d = c))

/-- `convertToProjectFlowFormat` from the sync adapter (`integration.js`
lines 44–56); `today` models `new Date().toISOString().split('T')[0]`. -/
def convertToProjectFlowFormat (d : DbRowJs) (today : Str) : PFTask :=
  { id := "task-".toList ++ (Nat.repr d.task_id).toList,
    title := d.title,
    description := some (if truthyS d.description then d.description.getD [] else []),
    projectId := "default-project".toList,
    priority := some d.priority,
    status := some (if d.status = statusCompleted then statusCompleted
                    else if d.status = statusPending then statusTodo
                    else "in-progress".toList),
    dueDate := d.due_date,
    createdDate := if truthyS d.created_at then splitFirst 'T' (d.created_at.getD []) else today }

/-- `convertToDbFormat` from the sync adapter (`integration.js` lines 31–39):
the payload later handed to `db.createTask` / `db.updateTask`. -/
def convertToDbFormat (p : PFTask) : TaskPayload :=
  { title := some p.title,
    description := some (if truthyS p.description then p.description.getD [] else []),
    due_date := if truthyS p.dueDate then p.dueDate else none,
    priority := some (if truthyS p.priority then p.priority.getD [] else priorityMedium),
    status := some (if p.status = some statusCompleted then statusCompleted else statusPending),
    updated_at := none }

/-- Boolean string-prefix test. -/
def pfxOf : Str → Str → Bool
  | [], _ => true
  | _ :: _, [] => false
  | a :: s, b :: t => decide (a = b) && pfxOf s t

/-- Following the claims' wording: `needle` occurs in `hay` as a literal
(case-sensitive) substring.  Used to compare the spec's description of
`searchTasks` with the SQLite `LIKE` semantics of the source. -/
def containsSub (needle hay : Str) : Bool := (suffixes hay).any (fun s => pfxOf needle s)

/-- Case-insensitive (ASCII) substring occurrence. -/
def ciContains (needle hay : Str) : Bool :=
  containsSub (needle.map lowerA) (hay.map lowerA)

/-- `true` when the string contains no `LIKE` wildcard character. -/
def wildcardFree (s : Str) : Bool :=
  s.all (fun c => !decide (c = '%') && !decide (c = '_'))

/-- Payload `{status: "completed"}` — the update discussed by the spec. -/
def statusOnlyPayload : TaskPayload :=
  { title := none, description := none, due_date := none,
    priority := none, status := some statusCompleted, updated_at := none }

/-- Payload `{title: "Minimal Task"}` used by the repository's own test
suite (`database/test.js`, test 3). -/
def minimalPayload : TaskPayload :=
  { title := some ("Minimal Task".toList), description := none, due_date := none,
    priority := none, status := none, updated_at := none }

/-- A 256-character title whose trimmed form is the single character `a`. -/
def exLongTitle : Str := 'a' :: List.replicate 255 ' '

def exPayloadLong : TaskPayload :=
  { title := some exLongTitle, description := none, due_date := none,
    priority := none, status := none, updated_at := none }

def exRowA : TaskRow :=
  { task_id := 1, title := "Alpha".toList, description := none, due_date := none,
    priority := priorityMedium, status := statusPending, created_at := 5, updated_at := 5 }

def exRowB : TaskRow :=
  { task_id := 2, title := "Beta".toList, description := some ("notes".toList),
    due_date := some ("2025-01-20".toList), priority := priorityHigh,
    status := statusCompleted, created_at := 9, updated_at := 9 }

def exState : DbState := { rows := [exRowA, exRowB], nextId := 3 }

def exFiltersLimit0 : TaskFilters :=
  { status := none, priority := none, due_date_from := none,
    due_date_to := none, limit := some 0 }

def exRowDoc : TaskRow :=
  { task_id := 1, title := "DOC".toList, description := none, due_date := none,
    priority := priorityMedium, status := statusPending, created_at := 0, updated_at := 0 }

def exStateDoc : DbState := { rows := [exRowDoc], nextId := 2 }

/-- Payload `{title: "x"}`: passes validation, so it can drive updates. -/
def titleOnlyPayload : TaskPayload :=
  { title := some ("x".toList), description := none, due_date := none,
    priority := none, status := none, updated_at := none }

def exFiltersLimit1 : TaskFilters :=
  { status := none, priority := none, due_date_from := none,
    due_date_to := none, limit := some 1 }

/-- `exState` after `updateTask exState 7 1 titleOnlyPayload`. -/
def exStateUpd : DbState :=
  { rows :=
      [{ task_id := 1, title := "x".toList, description := none, due_date := none,
         priority := priorityMedium, status := statusPending, created_at := 5, updated_at := 7 },
       exRowB],
    nextId := 3 }

def exRowJs : DbRowJs :=
  { task_id := 1, title := "T".toList, description := none, due_date := none,
    priority := priorityMedium, status := statusPending, created_at := none }

/-- Membership in a conditional singleton chunk of the error list. -/
theorem mem_iteSingleton {α : Type} {m x : α} {c : Prop} [Decidable c] :
    (x ∈ if c then [m] else []) ↔ (c ∧ x = m) := by
  split <;> simp_all

/-- Claim C1 (code bug): for every table state, clock and id, the partial
update `{status: "completed"}` is rejected by `updateTask` with the
validation error `Title is required`, because `updateTask` runs the full
`validateTask` — whose title rule fires on every payload without a truthy
title — on the partial payload.  This contradicts the repository's own
README quick start and `examples.js` example 7, which update existing tasks
with a payload that has no title. -/
theorem c1_updateTask_status_only_rejected (st : DbState) (now id : Nat) :
    updateTask st now id statusOnlyPayload =
      Except.error (DbError.validationFailed [msgTitleRequired]) := rfl

/-- Claim C2 (code bug): `createTask` on the minimal valid payload
`{title: "Minimal Task"}` stores the defaults (`medium`/`pending`) in the
table, but the record it *returns* is the spread of the raw payload: its
`priority` and `status` are absent (`none`) rather than the defaults.  The
repository's own `database/test.js` test 3 asserts the returned record has
`priority === 'medium'` and `status === 'pending'`, so that test fails. -/
theorem c2_createTask_return_lacks_defaults (st : DbState) (now : Nat) :
    createTask st now minimalPayload =
      Except.ok
        ({ rows := st.rows ++
            [{ task_id := st.nextId, title := "Minimal Task".toList, description := none,
               due_date := none, priority := priorityMedium, status := statusPending,
               created_at := now, updated_at := now }],
           nextId := st.nextId + 1 },
         { task_id := st.nextId, title := some ("Minimal Task".toList), description := none,
           due_date := none, priority := none, status := none,
           created_at := now, updated_at := now }) := rfl

/-- Claim C8: the `No valid fields to update` branch of `updateTask` is
unreachable — whenever `validateTask` reports no errors the payload carries a
non-empty title, hence at least one recognized column, and `updateTask`
cannot reject with `noValidFields`. -/
theorem c8_no_valid_fields_unreachable (st : DbState) (now id : Nat) (u : TaskPayload)
    (h : validateTask u = []) :
    (∃ s, u.title = some s ∧ s ≠ []) ∧
      updateTask st now id u ≠ Except.error DbError.noValidFields := by
  have hts : ∃ s, u.title = some s ∧ s ≠ [] := by
    cases hu : u.title with
    | none => simp [validateTask, hu, truthyS] at h
    | some s =>
      cases s with
      | nil => simp [validateTask, hu, truthyS] at h
      | cons c s' => exact ⟨c :: s', rfl, by simp⟩
  refine ⟨hts, ?_⟩
  obtain ⟨s, hu, -⟩ := hts
  simp only [updateTask, h, List.isEmpty_nil, if_true, hu, Option.isSome_some, Bool.true_or]
  split
  · simp
  · simp

/-- Closed witness for C8 at the payload `{title: "x"}` on a two-row table. -/
theorem c8_no_valid_fields_unreachable_witness :
    validateTask titleOnlyPayload = [] ∧
      ((∃ s, titleOnlyPayload.title = some s ∧ s ≠ []) ∧
        updateTask exState 7 1 titleOnlyPayload ≠ Except.error DbError.noValidFields) :=
  ⟨rfl, c8_no_valid_fields_unreachable exState 7 1 titleOnlyPayload rfl⟩

/-- Claim C9: `getAllTasks` treats `limit: 0` as falsy — no `LIMIT` clause is
added — so the call behaves exactly like the unlimited query and returns
every matching record. -/
theorem c9_limit_zero_no_limit (st : DbState) (s p dfrom dto : Option Str) :
    getAllTasks st
        { status := s, priority := p, due_date_from := dfrom,
          due_date_to := dto, limit := some 0 } =
      getAllTasks st
        { status := s, priority := p, due_date_from := dfrom,
          due_date_to := dto, limit := none } ∧
    ∀ r, r ∈ getAllTasks st
        { status := s, priority := p, due_date_from := dfrom,
          due_date_to := dto, limit := some 0 } ↔
      (r ∈ st.rows ∧ matchesFilters
        { status := s, priority := p, due_date_from := dfrom,
          due_date_to := dto, limit := some 0 } r = true) := by
  constructor
  · rfl
  · intro r
    simp [getAllTasks, truthyN, List.mem_filter]

/-- Claim C10: a store status in `{pending, completed}` survives the round
trip through the sync adapter's converters — `completed` maps to the
ProjectFlow `completed` and back; `pending` maps to `todo` and back to
`pending`. -/
theorem c10_status_round_trip (d : DbRowJs) (today : Str)
    (h : d.status = statusPending ∨ d.status = statusCompleted) :
    (convertToDbFormat (convertToProjectFlowFormat d today)).status = some d.status := by
  have h1 : statusPending ≠ statusCompleted := by decide
  have h2 : statusTodo ≠ statusCompleted := by decide
  rcases h with h | h <;>
    simp [convertToDbFormat, convertToProjectFlowFormat, h, h1, h2]

/-- Closed witness for C10 at a concrete pending row. -/
theorem c10_status_round_trip_witness :
    (exRowJs.status = statusPending ∨ exRowJs.status = statusCompleted) ∧
      (convertToDbFormat (convertToProjectFlowFormat exRowJs [])).status = some exRowJs.status :=
  ⟨Or.inl rfl, c10_status_round_trip exRowJs [] (Or.inl rfl)⟩

set_option maxRecDepth 4000 in
/-- Claim C3 counterexample: the 256-character title `"a"` followed by 255
spaces trims to the single non-empty character `a` (trimmed length 1 ≤ 255),
yet `validateTask` reports the length violation, because the source tests
the raw, untrimmed length (`task.title.length > 255`). -/
theorem c3_counterexample_untrimmed_length :
    validateTask exPayloadLong = [msgTitleLong] ∧
      jsTrim exLongTitle = ['a'] ∧ exLongTitle.length = 256 :=
  ⟨by decide, by decide, by decide⟩

/-- Claim C3 (amended): each rule of `validateTask` contributes its message to
the one aggregated error list exactly when it is violated; the title rules
fire exactly when the title is missing or blank after trimming, or when the
*untrimmed* title length exceeds 255 characters. -/
theorem c3_validateTask_errors_characterization (t : TaskPayload) :
    (msgTitleRequired ∈ validateTask t ↔
      (truthyS t.title = false ∨ jsTrim (t.title.getD []) = [])) ∧
    (msgTitleLong ∈ validateTask t ↔
      (truthyS t.title = true ∧ 255 < (t.title.getD []).length)) ∧
    (msgPriorityEnum ∈ validateTask t ↔
      (truthyS t.priority = true ∧ t.priority.getD [] ∉ priorityValues)) ∧
    (msgStatusEnum ∈ validateTask t ↔
      (truthyS t.status = true ∧ t.status.getD [] ∉ statusValues)) ∧
    (msgDueDate ∈ validateTask t ↔
      (truthyS t.due_date = true ∧ jsDateParseOk (t.due_date.getD []) = false)) := by
  have f12 : (msgTitleRequired = msgTitleLong) = False := eq_false (by decide)
  have f13 : (msgTitleRequired = msgPriorityEnum) = False := eq_false (by decide)
  have f14 : (msgTitleRequired = msgStatusEnum) = False := eq_false (by decide)
  have f15 : (msgTitleRequired = msgDueDate) = False := eq_false (by decide)
  have f21 : (msgTitleLong = msgTitleRequired) = False := eq_false (by decide)
  have f23 : (msgTitleLong = msgPriorityEnum) = False := eq_false (by decide)
  have f24 : (msgTitleLong = msgStatusEnum) = False := eq_false (by decide)
  have f25 : (msgTitleLong = msgDueDate) = False := eq_false (by decide)
  have f31 : (msgPriorityEnum = msgTitleRequired) = False := eq_false (by decide)
  have f32 : (msgPriorityEnum = msgTitleLong) = False := eq_false (by decide)
  have f34 : (msgPriorityEnum = msgStatusEnum) = False := eq_false (by decide)
  have f35 : (msgPriorityEnum = msgDueDate) = False := eq_false (by decide)
  have f41 : (msgStatusEnum = msgTitleRequired) = False := eq_false (by decide)
  have f42 : (msgStatusEnum = msgTitleLong) = False := eq_false (by decide)
  have f43 : (msgStatusEnum = msgPriorityEnum) = False := eq_false (by decide)
  have f45 : (msgStatusEnum = msgDueDate) = False := eq_false (by decide)
  have f51 : (msgDueDate = msgTitleRequired) = False := eq_false (by decide)
  have f52 : (msgDueDate = msgTitleLong) = False := eq_false (by decide)
  have f53 : (msgDueDate = msgPriorityEnum) = False := eq_false (by decide)
  have f54 : (msgDueDate = msgStatusEnum) = False := eq_false (by decide)
  refine ⟨?_, ?_, ?_, ?_, ?_⟩ <;>
    simp only [validateTask, List.mem_append, mem_iteSingleton,
      f12, f13, f14, f15, f21, f23, f24, f25, f31, f32, f34, f35,
      f41, f42, f43, f45, f51, f52, f53, f54,
      and_false, false_or, or_false, and_true] <;>
    simp [Bool.or_eq_true, Bool.and_eq_true, Bool.not_eq_true',
      List.isEmpty_iff, decide_eq_true_eq, gt_iff_lt, decide_eq_false_iff_not]

/-- Splitting the row count by status: when every row's status is one of the
two enumerated values (the schema `CHECK` constraint), the pending and
completed indicator sums add up to the length. -/
theorem sum_status_split (l : List TaskRow)
    (h : ∀ r ∈ l, r.status = statusPending ∨ r.status = statusCompleted) :
    ((l.map (fun r => if r.status = statusPending then (1 : Nat) else 0)).sum +
      (l.map (fun r => if r.status = statusCompleted then (1 : Nat) else 0)).sum) = l.length := by
  induction l with
  | nil => rfl
  | cons r l ih =>
    have hr := h r (by simp)
    have hl : ∀ x ∈ l, x.status = statusPending ∨ x.status = statusCompleted :=
      fun x hx => h x (by simp [hx])
    have hne : statusPending ≠ statusCompleted := by decide
    have ihl := ih hl
    rcases hr with hs | hs <;>
      simp only [List.map_cons, List.sum_cons, List.length_cons, hs, if_true, if_false,
        eq_self_iff_true, if_pos rfl, if_neg hne, if_neg (Ne.symm hne)] <;>
      omega

/-- Claim C4: `getTaskStats` reports `total_tasks` equal to the number of
stored records (including the empty table), and — under the schema `CHECK`
constraint that every stored status is `pending` or `completed` — the
pending and completed counts add up to the total.  SQL `SUM` yields `NULL`
on the empty table; `Option.getD 0` models the JavaScript coercion of
`null` to `0` under `+`. -/
theorem c4_getTaskStats_totals (st : DbState) (today : Str)
    (h : ∀ r ∈ st.rows, r.status = statusPending ∨ r.status = statusCompleted) :
    (getTaskStats st today).total_tasks = st.rows.length ∧
      ((getTaskStats st today).pending_tasks.getD 0 +
        (getTaskStats st today).completed_tasks.getD 0 =
        (getTaskStats st today).total_tasks) := by
  refine ⟨rfl, ?_⟩
  cases hrows : st.rows with
  | nil => simp [getTaskStats, sqlSumCase, hrows]
  | cons r l =>
    have h' : ∀ x ∈ r :: l, x.status = statusPending ∨ x.status = statusCompleted :=
      fun x hx => h x (hrows ▸ hx)
    have hsum := sum_status_split (r :: l) h'
    simp only [getTaskStats, sqlSumCase, hrows, Option.getD_some]
    simpa [decide_eq_true_eq] using hsum

/-- Closed witness for C4 on the two-row table (one pending, one completed). -/
theorem c4_getTaskStats_totals_witness :
    (∀ r ∈ exState.rows, r.status = statusPending ∨ r.status = statusCompleted) ∧
      ((getTaskStats exState []).total_tasks = exState.rows.length ∧
        ((getTaskStats exState []).pending_tasks.getD 0 +
          (getTaskStats exState []).completed_tasks.getD 0 =
          (getTaskStats exState []).total_tasks)) :=
  ⟨by decide, c4_getTaskStats_totals exState [] (by decide)⟩

/-- Claim C5: on every successful update, the updated row's `updated_at` is
set to the update instant (`updated_at = CURRENT_TIMESTAMP` in the SET
clause, re-established by the schema trigger `update_tasks_updated_at`);
rows with a different id are returned untouched; an `updated_at` value on
the caller's payload is never read, so the refresh supersedes it; and with a
monotone clock the invariant `created_at ≤ updated_at` is preserved by
updates and established at creation with both timestamps equal.  Reads are
pure functions of the state in this model — the source only issues SELECT
statements — so no read changes `updated_at`. -/
theorem c5_updated_at_refresh (st : DbState) (now id : Nat) (u : TaskPayload)
    (st' : DbState) (c : Nat) (v : Option Nat)
    (hok : updateTask st now id u = Except.ok (st', c)) :
    (∀ r ∈ st'.rows, r.task_id = id → r.updated_at = now) ∧
    (∀ r ∈ st'.rows, r.task_id ≠ id → r ∈ st.rows) ∧
    updateTask st now id { u with updated_at := v } = Except.ok (st', c) ∧
    ((∀ r ∈ st.rows, r.created_at ≤ r.updated_at ∧ r.created_at ≤ now) →
      ∀ r ∈ st'.rows, r.created_at ≤ r.updated_at) ∧
    (∀ t stc dto, createTask st now t = Except.ok (stc, dto) →
      (∀ r ∈ st.rows, r.created_at ≤ r.updated_at) →
      ∀ r ∈ stc.rows, r.created_at ≤ r.updated_at) := by
  have hmod : updateTask st now id { u with updated_at := v } = updateTask st now id u := rfl
  have hok' := hok
  simp only [updateTask] at hok
  split at hok
  · split at hok
    · split at hok
      · simp only [Except.ok.injEq, Prod.mk.injEq] at hok
        obtain ⟨hst, hc⟩ := hok
        subst hst
        subst hc
        refine ⟨?_, ?_, ?_, ?_, ?_⟩
        · intro r hr hid
          rcases List.mem_map.mp hr with ⟨x, hx, hfx⟩
          subst hfx
          by_cases hxid : x.task_id = id
          · rw [if_pos hxid]
            rfl
          · rw [if_neg hxid] at hid ⊢
            exact absurd hid hxid
        · intro r hr hid
          rcases List.mem_map.mp hr with ⟨x, hx, hfx⟩
          subst hfx
          by_cases hxid : x.task_id = id
          · rw [if_pos hxid] at hid
            exact absurd hxid (by simpa [applyUpdates] using hid)
          · rw [if_neg hxid]
            exact hx
        · rw [hmod]
          exact hok'
        · intro hinv r hr
          rcases List.mem_map.mp hr with ⟨x, hx, hfx⟩
          subst hfx
          by_cases hxid : x.task_id = id
          · rw [if_pos hxid]
            simpa [applyUpdates] using (hinv x hx).2
          · rw [if_neg hxid]
            exact (hinv x hx).1
        · intro t stc dto hcr hinv r hr
          simp only [createTask] at hcr
          split at hcr
          · simp only [Except.ok.injEq, Prod.mk.injEq] at hcr
            obtain ⟨hstc, -⟩ := hcr
            subst hstc
            rcases List.mem_append.mp hr with hra | hrb
            · exact hinv r hra
            · rcases List.mem_singleton.mp hrb with rfl
              exact Nat.le_refl now
          · exact absurd hcr (by simp)
      · exact absurd hok (by simp)
    · exact absurd hok (by simp)
  · exact absurd hok (by simp)

/-- Closed witness for C5: updating task 1 of the two-row table with the
payload `{title: "x"}` at instant 7. -/
theorem c5_updated_at_refresh_witness :
    updateTask exState 7 1 titleOnlyPayload = Except.ok (exStateUpd, 1) ∧
      ((∀ r ∈ exStateUpd.rows, r.task_id = 1 → r.updated_at = 7) ∧
       (∀ r ∈ exStateUpd.rows, r.task_id ≠ 1 → r ∈ exState.rows) ∧
       updateTask exState 7 1 { titleOnlyPayload with updated_at := some 99 } =
         Except.ok (exStateUpd, 1) ∧
       ((∀ r ∈ exState.rows, r.created_at ≤ r.updated_at ∧ r.created_at ≤ 7) →
         ∀ r ∈ exStateUpd.rows, r.created_at ≤ r.updated_at) ∧
       (∀ t stc dto, createTask exState 7 t = Except.ok (stc, dto) →
         (∀ r ∈ exState.rows, r.created_at ≤ r.updated_at) →
         ∀ r ∈ stc.rows, r.created_at ≤ r.updated_at)) :=
  ⟨rfl,
   c5_updated_at_refresh exState 7 1 titleOnlyPayload exStateUpd 1 (some 99) rfl⟩

/-- Claim C6 counterexample: `limit: 0` is supplied by the caller, yet
`getAllTasks` returns both rows of the two-row table instead of a sequence
truncated to 0 records — `if (filters.limit)` treats `0` as falsy and adds
no `LIMIT` clause. -/
theorem c6_counterexample_limit_zero :
    exFiltersLimit0.limit = some 0 ∧
      getAllTasks exState exFiltersLimit0 = [exRowB, exRowA] ∧
      (getAllTasks exState exFiltersLimit0).length ≠ 0 :=
  ⟨rfl, rfl, by decide⟩

/-- Claim C6 (amended): `getAllTasks` returns rows of the table satisfying
every supplied (truthy) filter, ordered by `created_at` descending; with no
truthy limit the result is exactly the matching rows (a permutation of the
filtered table); a *nonzero* limit `n` makes the result exactly the first
`n` rows of the ordered unlimited result (a limit of `0` is falsy and
applies no truncation). -/
theorem c6_getAllTasks_characterization (st : DbState) (f : TaskFilters) :
    (∀ r ∈ getAllTasks st f, r ∈ st.rows ∧ matchesFilters f r = true) ∧
    (getAllTasks st f).Pairwise createdDesc ∧
    (truthyN f.limit = false →
      (getAllTasks st f).Perm (st.rows.filter (matchesFilters f))) ∧
    (∀ n, f.limit = some n → n ≠ 0 →
      getAllTasks st f = (getAllTasks st { f with limit := none }).take n) := by
  have hgl : getAllTasks st { f with limit := none } =
      List.insertionSort createdDesc (st.rows.filter (matchesFilters f)) := rfl
  refine ⟨?_, ?_, ?_, ?_⟩
  · intro r hr
    have hr' : r ∈ List.insertionSort createdDesc (st.rows.filter (matchesFilters f)) := by
      unfold getAllTasks at hr
      split at hr
      · exact List.take_subset _ _ hr
      · exact hr
    rw [List.mem_insertionSort] at hr'
    exact List.mem_filter.mp hr'
  · have hs : List.Pairwise createdDesc
        (List.insertionSort createdDesc (st.rows.filter (matchesFilters f))) :=
      List.sorted_insertionSort createdDesc _
    unfold getAllTasks
    split
    · exact List.Pairwise.sublist (List.take_sublist _ _) hs
    · exact hs
  · intro hlim
    simp only [getAllTasks, hlim, Bool.false_eq_true, if_false]
    exact List.perm_insertionSort createdDesc _
  · intro n hn hn0
    have htr' : truthyN (some n) = true := by simp [truthyN, hn0]
    rw [hgl]
    simp only [getAllTasks, hn, Option.getD_some]
    rw [if_pos htr']

/-- Closed witness for C6: a limit of `1` on the two-row table returns
exactly the first row of the descending order, and the unlimited query is a
permutation of the filtered table. -/
theorem c6_getAllTasks_characterization_witness :
    (getAllTasks exState exFiltersLimit1 =
        (getAllTasks exState { exFiltersLimit1 with limit := none }).take 1) ∧
      (getAllTasks exState { exFiltersLimit1 with limit := none }).Perm
        (exState.rows.filter (matchesFilters { exFiltersLimit1 with limit := none })) :=
  ⟨(c6_getAllTasks_characterization exState exFiltersLimit1).2.2.2 1 rfl (by decide),
   (c6_getAllTasks_characterization exState
      { exFiltersLimit1 with limit := none }).2.2.1 rfl⟩

/-- Every string has the empty suffix. -/
theorem suffixes_any_isEmpty : ∀ t : Str, (suffixes t).any (fun s => s.isEmpty) = true
  | [] => rfl
  | c :: t => by simp [suffixes, suffixes_any_isEmpty t]

/-- A pattern that is just `%` matches every text. -/
theorem likeM_all_pct (t : Str) : likeM ['%'] t = true := by
  simp [likeM, suffixes_any_isEmpty t]

/-- A leading `%` means: some suffix of the text matches the rest. -/
theorem likeM_pct_any (p t : Str) :
    likeM ('%' :: p) t = (suffixes t).any (fun s => likeM p s) := by
  simp [likeM]

/-- A wildcard-free pattern followed by `%` matches exactly the texts whose
ASCII lower-casing starts with the pattern's lower-casing. -/
theorem likeM_lit (n : Str) (hn : wildcardFree n = true) :
    ∀ t, likeM (n ++ ['%']) t = pfxOf (n.map lowerA) (t.map lowerA) := by
  induction n with
  | nil =>
    intro t
    simp [likeM_all_pct, pfxOf]
  | cons c n ih =>
    have hw : (¬c = '%' ∧ ¬c = '_') ∧ wildcardFree n = true := by
      simpa [wildcardFree, List.all_cons, Bool.and_eq_true] using hn
    intro t
    cases t with
    | nil => simp [likeM, pfxOf, hw.1.1]
    | cons d t' =>
      simp [likeM, pfxOf, hw.1.1, hw.1.2, ih hw.2 t']

/-- `suffixes` commutes with character-wise mapping. -/
theorem suffixes_map (f : Char → Char) :
    ∀ t : Str, suffixes (t.map f) = (suffixes t).map (List.map f)
  | [] => rfl
  | c :: t => by simp [suffixes, suffixes_map f t]

/-- The `%term%` pattern built by `searchTasks`, for a wildcard-free term,
matches exactly the texts containing the term case-insensitively. -/
theorem likeM_ci (n t : Str) (hn : wildcardFree n = true) :
    likeM ('%' :: (n ++ ['%'])) t = ciContains n t := by
  rw [likeM_pct_any]
  unfold ciContains containsSub
  rw [suffixes_map, List.any_map]
  congr 1
  funext s
  simp [Function.comp, likeM_lit n hn s]

/-- Claim C7 counterexample: the result set is not "exactly the records
whose title or description contains the term as a substring", on two
counts.  SQLite `LIKE` folds ASCII case: searching `doc` returns the row
titled `DOC` although `doc` does not occur in `DOC` (or in the absent
description) as a literal substring.  And `LIKE` treats `%`/`_` as
wildcards: searching `d_c` also returns that row although `d_c` occurs
neither in the title nor in its lower-casing. -/
theorem c7_counterexample_like_semantics :
    (searchTasks exStateDoc (some ("doc".toList)) = Except.ok [exRowDoc] ∧
      containsSub ("doc".toList) exRowDoc.title = false) ∧
      (searchTasks exStateDoc (some ("d_c".toList)) = Except.ok [exRowDoc] ∧
        containsSub ("d_c".toList) exRowDoc.title = false ∧
        ciContains ("d_c".toList) exRowDoc.title = false) ∧
      exRowDoc.description = none :=
  ⟨⟨rfl, rfl⟩, ⟨rfl, rfl, rfl⟩, rfl⟩

/-- Claim C7 (amended): `searchTasks` fails exactly for terms that are falsy
or blank after trimming; for a wildcard-free trimmed term the rows returned
are exactly those whose title or description contains the trimmed term as a
case-insensitive (ASCII) substring — the SQLite `LIKE` semantics — ordered
by `created_at` descending. -/
theorem c7_searchTasks_characterization (st : DbState) (term : Option Str) :
    (searchTasks st term = Except.error DbError.searchTermRequired ↔
      (truthyS term = false ∨ jsTrim (term.getD []) = [])) ∧
    (∀ l, searchTasks st term = Except.ok l →
      wildcardFree (jsTrim (term.getD [])) = true →
      (∀ r, r ∈ l ↔ r ∈ st.rows ∧
        (ciContains (jsTrim (term.getD [])) r.title = true ∨
          ∃ d, r.description = some d ∧ ciContains (jsTrim (term.getD [])) d = true)) ∧
      l.Pairwise createdDesc) := by
  cases hguard : (!truthyS term || (jsTrim (term.getD [])).isEmpty) with
  | true =>
    constructor
    · simp only [searchTasks, hguard, if_true]
      constructor
      · intro _
        rcases Bool.or_eq_true_iff.mp hguard with h | h
        · exact Or.inl (by simpa using h)
        · exact Or.inr (by simpa using h)
      · intro _
        trivial
    · intro l hl
      simp [searchTasks, hguard] at hl
  | false =>
    have hg : truthyS term = true ∧ ¬jsTrim (term.getD []) = [] := by
      simpa using hguard
    constructor
    · simp only [searchTasks, hguard, Bool.false_eq_true, if_false]
      constructor
      · intro h
        exact absurd h (by simp)
      · intro h
        rcases h with h | h
        · exact absurd h (by simp [hg.1])
        · exact absurd h hg.2
    · intro l hl hwf
      simp only [searchTasks, hguard, Bool.false_eq_true, if_false, Except.ok.injEq] at hl
      subst hl
      constructor
      · intro r
        rw [List.mem_insertionSort, List.mem_filter]
        apply and_congr_right
        intro _
        rw [Bool.or_eq_true_iff, likeM_ci _ _ hwf]
        apply or_congr Iff.rfl
        cases hd : r.description with
        | none => simp
        | some d => simp [likeM_ci _ _ hwf]
      · exact List.sorted_insertionSort createdDesc _

/-- Closed witness for C7's amended characterization at the concrete search
`doc` over the one-row table. -/
theorem c7_searchTasks_characterization_witness :
    (exRowDoc ∈ [exRowDoc] ↔ exRowDoc ∈ exStateDoc.rows ∧
      (ciContains (jsTrim ((some ("doc".toList)).getD [])) exRowDoc.title = true ∨
        ∃ d, exRowDoc.description = some d ∧
          ciContains (jsTrim ((some ("doc".toList)).getD [])) d = true)) ∧
      List.Pairwise createdDesc [exRowDoc] :=
  ⟨((c7_searchTasks_characterization exStateDoc (some ("doc".toList))).2
      [exRowDoc] rfl rfl).1 exRowDoc,
   ((c7_searchTasks_characterization exStateDoc (some ("doc".toList))).2
      [exRowDoc] rfl rfl).2⟩
